import Mathlib

/-!
# Verification of the KML export pipeline (`export_kml.py`)

Shallow embedding of `KmlExportProcessingAlgorithm.processAlgorithm` from
`src/export_kml.py`.  Layers are represented by their names (the only layer
attribute the control flow reads), the filesystem by the existence flags of
the two paths the code touches (the destination KML file and the temporary
GeoPackage), and the external collaborators (`native:savefeatures`,
`gdal:convertformat`, `feedback`, `os.remove`) by an environment of oracles
describing each call's outcome.  All feedback messages, progress reports,
cancellation polls and filesystem operations are recorded in an event trace.
-/

namespace KmlExport

/-! ## Decimal rendering of naturals

Python's f-string `f"{original_layer_name}_{suffix}"` renders the integer
`suffix` in decimal.  `natToStr` reproduces `str(int)` for naturals; the
fuel argument makes the recursion structural (fuel `n+1` always suffices
since the argument shrinks by a factor of ten each step). -/

def natCharsAux : Nat → Nat → List Char
  | 0, _ => []
  | fuel + 1, n =>
    if n < 10 then [Nat.digitChar n]
    else natCharsAux fuel (n / 10) ++ [Nat.digitChar (n % 10)]

def natToStr (n : Nat) : String := ⟨natCharsAux (n + 1) n⟩

/-- Decimal parser used only to invert `natToStr`. -/
def charsToNat (cs : List Char) : Nat :=
  List.foldl (fun a c => a * 10 + (c.toNat - 48)) 0 cs

theorem charsToNat_append_one (cs : List Char) (c : Char) :
    charsToNat (cs ++ [c]) = charsToNat cs * 10 + (c.toNat - 48) := by
  simp [charsToNat, List.foldl_append]

theorem digitChar_toNat {d : Nat} (h : d < 10) :
    (Nat.digitChar d).toNat = 48 + d := by
  revert h
  revert d
  decide

theorem charsToNat_natCharsAux :
    ∀ fuel n, n < fuel → charsToNat (natCharsAux fuel n) = n := by
  intro fuel
  induction fuel with
  | zero => intro n h; omega
  | succ fuel ih =>
    intro n h
    by_cases hn : n < 10
    · simp [natCharsAux, hn, charsToNat, digitChar_toNat hn]
    · have hdiv : n / 10 < n := Nat.div_lt_self (by omega) (by omega)
      have hfuel : n / 10 < fuel := by omega
      simp only [natCharsAux, if_neg hn]
      rw [charsToNat_append_one, ih _ hfuel,
        digitChar_toNat (Nat.mod_lt _ (by omega))]
      omega

theorem natToStr_injective : Function.Injective natToStr := by
  intro m n h
  have hd : natCharsAux (m + 1) m = natCharsAux (n + 1) n := by
    simpa [natToStr, String.ext_iff] using h
  have := charsToNat_natCharsAux (m + 1) m (by omega)
  rw [hd, charsToNat_natCharsAux (n + 1) n (by omega)] at this
  omega

theorem natCharsAux_ne_nil : ∀ fuel n, 0 < fuel → natCharsAux fuel n ≠ [] := by
  intro fuel n h
  match fuel, h with
  | fuel + 1, _ =>
    by_cases hn : n < 10 <;> simp [natCharsAux, hn]

theorem natToStr_length_pos (n : Nat) : 0 < (natToStr n).length := by
  have := natCharsAux_ne_nil (n + 1) n (by omega)
  simp only [natToStr, String.length]
  exact List.length_pos.mpr this

/-! ## Layer-name collision resolution (`export_kml.py` lines 148-156)

```python
layer_name = original_layer_name
suffix = 1
while layer_name in used_layer_names:
    layer_name = f"{original_layer_name}_{suffix}"
    suffix += 1
```

The while loop is embedded with explicit fuel; `used.length + 1` membership
tests always suffice, because the candidate names are pairwise distinct, so
at most `used.length` of them can be members of `used`. -/

/-- The `suffix`-th candidate name `f"{original}_{suffix}"`. -/
def suffixedName (original : String) (suffix : Nat) : String :=
  original ++ "_" ++ natToStr suffix

/-- The candidate tried at position `k`: the original name for `k = 0`,
then the suffixed names in order. -/
def candidateName (original : String) : Nat → String
  | 0 => original
  | k + 1 => suffixedName original (k + 1)

def nameLoop (original : String) (used : List String) :
    Nat → String → Nat → String
  | 0, layer_name, _ => layer_name
  | fuel + 1, layer_name, suffix =>
    if layer_name ∈ used then
      nameLoop original used fuel (suffixedName original suffix) (suffix + 1)
    else layer_name

/-- The resolved container-internal name for a layer named `original` given
the set `used` of names already taken (lines 148-153). -/
def resolveLayerName (original : String) (used : List String) : String :=
  nameLoop original used (used.length + 1) original 1

theorem candidateName_injective (original : String) :
    Function.Injective (candidateName original) := by
  intro i j h
  match i, j with
  | 0, 0 => rfl
  | 0, j + 1 =>
    exfalso
    have hlen := congrArg String.length h
    have h1 := natToStr_length_pos (j + 1)
    simp [candidateName, suffixedName, String.length_append] at hlen
    omega
  | i + 1, 0 =>
    exfalso
    have hlen := congrArg String.length h
    have h1 := natToStr_length_pos (i + 1)
    simp [candidateName, suffixedName, String.length_append] at hlen
    omega
  | i + 1, j + 1 =>
    have h2 : (original ++ "_" ++ natToStr (i + 1)).data
        = (original ++ "_" ++ natToStr (j + 1)).data := congrArg String.data h
    rw [String.data_append, String.data_append, String.data_append,
      String.data_append, List.append_assoc, List.append_assoc] at h2
    have h3 := @List.append_cancel_left _ original.data _ _ h2
    have h4 := @List.append_cancel_left _ ("_".data) _ _ h3
    have := natToStr_injective (String.ext h4)
    omega

/-- Among the first `used.length + 1` candidates, at least one is free. -/
theorem candidateName_exists_free (original : String) (used : List String) :
    ∃ j, j < used.length + 1 ∧ candidateName original j ∉ used := by
  by_contra hall
  push_neg at hall
  set L := used.length with hL
  have hmem : ∀ j, j < L + 1 → candidateName original j ∈ used := hall
  have hnodup : ((List.range (L + 1)).map (candidateName original)).Nodup :=
    (List.nodup_range _).map (candidateName_injective original)
  have hsub : ((List.range (L + 1)).map (candidateName original)).toFinset ⊆
      used.toFinset := by
    intro x hx
    simp only [List.mem_toFinset, List.mem_map, List.mem_range] at hx
    obtain ⟨j, hj, rfl⟩ := hx
    exact List.mem_toFinset.mpr (hmem j hj)
  have hcard1 :
      ((List.range (L + 1)).map (candidateName original)).toFinset.card
        = L + 1 := by
    rw [List.toFinset_card_of_nodup hnodup]
    simp
  have hcard2 : used.toFinset.card ≤ L := hL ▸ used.toFinset_card_le
  have := Finset.card_le_card hsub
  omega

/-- Specification of the fuel-based loop: started at candidate `i` with
enough fuel to reach a free candidate, it returns the first free candidate
at position `≥ i`. -/
theorem nameLoop_spec (original : String) (used : List String) :
    ∀ fuel i, (∃ j, j < fuel ∧ candidateName original (i + j) ∉ used) →
      ∃ k, i ≤ k ∧
        nameLoop original used fuel (candidateName original i) (i + 1) =
          candidateName original k ∧
        candidateName original k ∉ used ∧
        ∀ j, i ≤ j → j < k → candidateName original j ∈ used := by
  intro fuel
  induction fuel with
  | zero => intro i ⟨j, hj, _⟩; omega
  | succ fuel ih =>
    intro i ⟨j, hj, hfree⟩
    by_cases hmem : candidateName original i ∈ used
    · have hj0 : j ≠ 0 := by
        intro h; rw [h] at hfree; simp at hfree; exact hfree hmem
      obtain ⟨j', rfl⟩ : ∃ j', j = j' + 1 := ⟨j - 1, by omega⟩
      have hnext : ∃ j, j < fuel ∧ candidateName original (i + 1 + j) ∉ used :=
        ⟨j', by omega, by rwa [show i + 1 + j' = i + (j' + 1) by omega]⟩
      obtain ⟨k, hk1, hk2, hk3, hk4⟩ := ih (i + 1) hnext
      refine ⟨k, by omega, ?_, hk3, ?_⟩
      · rw [← hk2]
        simp only [nameLoop, if_pos hmem]
        rfl
      · intro j hj1 hj2
        rcases Nat.eq_or_lt_of_le hj1 with h | h
        · rwa [← h]
        · exact hk4 j h hj2
    · exact ⟨i, le_refl i, by simp [nameLoop, hmem], hmem, fun j h1 h2 => by omega⟩

/-- `resolveLayerName` returns the first free candidate: the original name
when it is free, otherwise the suffixed name with the least free suffix. -/
theorem resolveLayerName_spec (original : String) (used : List String) :
    ∃ k, resolveLayerName original used = candidateName original k ∧
      candidateName original k ∉ used ∧
      ∀ j, j < k → candidateName original j ∈ used := by
  obtain ⟨j, hj, hfree⟩ := candidateName_exists_free original used
  obtain ⟨k, _, hk2, hk3, hk4⟩ :=
    nameLoop_spec original used (used.length + 1) 0 ⟨j, hj, by simpa using hfree⟩
  exact ⟨k, by simpa [resolveLayerName] using hk2, hk3,
    fun j' hj' => hk4 j' (Nat.zero_le _) hj'⟩

theorem resolveLayerName_not_mem (original : String) (used : List String) :
    resolveLayerName original used ∉ used := by
  obtain ⟨k, hk1, hk2, _⟩ := resolveLayerName_spec original used
  rw [hk1]; exact hk2

theorem resolveLayerName_length_pos (original : String) (used : List String)
    (h : 0 < original.length) : 0 < (resolveLayerName original used).length := by
  obtain ⟨k, hk1, _, _⟩ := resolveLayerName_spec original used
  rw [hk1]
  match k with
  | 0 => exact h
  | k + 1 =>
    have := natToStr_length_pos (k + 1)
    simp only [candidateName, suffixedName, String.length_append]
    omega

/-! ## Feedback messages

One definition per `pushInfo` f-string / exception message of
`processAlgorithm`, keeping the exact text (line numbers refer to
`src/export_kml.py`). -/

def msgIntro (n : Nat) (output_kml : String) : String :=
  "将导出 " ++ natToStr n ++ " 个图层到 " ++ output_kml

def msgOutputExisted (output_kml : String) : String :=
  "输出文件已存在，将被删除: " ++ output_kml

def msgCreateTemp (temp_gpkg : String) : String :=
  "创建临时GeoPackage文件: " ++ temp_gpkg

def msgStaleRemoved (temp_gpkg : String) : String :=
  "删除已存在的临时文件: " ++ temp_gpkg

def msgRenamed (layer_name : String) : String :=
  "图层名称重复，使用新名称: " ++ layer_name

def msgProcessing (layer_name : String) : String :=
  "处理图层: " ++ layer_name

def msgCreateFirst (layer_name : String) : String :=
  "创建新的GeoPackage并添加第一个图层: " ++ layer_name

def msgAppend (layer_name : String) : String :=
  "追加图层到GeoPackage: " ++ layer_name

def msgSaveOk (layer_name : String) : String :=
  "成功将图层 " ++ layer_name ++ " 添加到GeoPackage"

def msgSaveErr (layer_name cause : String) : String :=
  "添加图层 " ++ layer_name ++ " 到GeoPackage时出错: " ++ cause

def msgRemoveFailErr (cause : String) : String :=
  "删除临时文件时出错: " ++ cause

def msgGpkgNotCreated (temp_gpkg : String) : String :=
  "未能创建临时GeoPackage文件: " ++ temp_gpkg

def msgAllWritten (temp_gpkg : String) : String :=
  "所有图层已成功写入到GeoPackage: " ++ temp_gpkg

def msgConverting : String := "将GeoPackage导出为KML..."

def msgKmlMissing (output_kml : String) : String :=
  "gdal:convertformat未能生成KML文件: " ++ output_kml

def msgConvOk (output_kml : String) : String :=
  "成功将GeoPackage转换为KML: " ++ output_kml

def msgConvErr (cause : String) : String :=
  "将GeoPackage转换为KML时出错: " ++ cause

def msgTempDeleted (temp_gpkg : String) : String :=
  "已删除临时GeoPackage文件: " ++ temp_gpkg

def msgCannotDeleteTemp (cause : String) : String :=
  "无法删除临时GeoPackage文件: " ++ cause

def msgTempGone : String := "临时GeoPackage文件不存在或已被删除"

def msgDone (n : Nat) (output_kml : String) : String :=
  "成功导出 " ++ natToStr n ++ " 个图层到 " ++ output_kml

/-! ## Data model -/

/-- Observable events of one run: feedback messages, progress reports,
cancellation polls, calls to the layer-save service (with resolved layer
name and `ACTION_ON_EXISTING_FILE` flag), `os.remove` of the destination
file, `os.remove` attempts on the temporary GeoPackage (with outcome), and
the call to the conversion service. -/
inductive Event where
  | info (msg : String)
  | progress (value : Nat)
  | poll (canceled : Bool)
  | saveCall (layer_name : String) (action : Nat)
  | removeOutput
  | removeTemp (ok : Bool)
  | convertCall
deriving Repr, DecidableEq

/-- Existence flags of the two filesystem paths the code touches. -/
structure FS where
  outputExists : Bool
  tempExists : Bool
deriving Repr, DecidableEq

/-- The `QgsProcessingException`s `processAlgorithm` can raise, tagged by
raise site.  The `raise` at line 232 (missing KML after conversion) is
caught by the surrounding `except` (line 236) and re-raised as
`conversionError` with the rendered inner message, exactly as Python
re-wraps `str(e)`. -/
inductive ExportError where
  | noInputLayers
  | noOutputPath
  | stagingError (layer_name cause : String)
  | gpkgNotCreated (temp_gpkg : String)
  | conversionError (cause : String)
  | unboundLocal
deriving Repr, DecidableEq

/-- The message text carried by each raised exception.  `unboundLocal` is
the `UnboundLocalError` raised by line 201 when the nested
`except Exception as e` (line 199) has unbound `e`; its exact message
text varies with the Python version and no claim depends on it. -/
def ExportError.message : ExportError → String
  | .noInputLayers => "没有提供输入图层"
  | .noOutputPath => "未指定输出KML文件路径"
  | .stagingError layer_name cause => msgSaveErr layer_name cause
  | .gpkgNotCreated temp_gpkg => msgGpkgNotCreated temp_gpkg
  | .conversionError cause => msgConvErr cause
  | .unboundLocal =>
    "cannot access local variable 'e' where it is not associated with a value"

/-- Oracles describing the outcomes of all external collaborators during one
run.  `cancel i` is the result of the `i`-th `feedback.isCanceled()` poll;
`saveErr i` is the error raised by the `i`-th `native:savefeatures` call
(`none` = success); `saveFailLeavesFile i` tells whether a failed `i`-th
save call left the GeoPackage file on disk; `removeOnFailErr` /
`removeFinallyErr` are the errors raised by `os.remove(temp_gpkg)` in the
staging `except` block / in the conversion `finally` block; `convErr` is
the error raised by `gdal:convertformat`, and `convCreatesOutput` tells
whether a successful conversion left the destination file on disk. -/
structure Env where
  cancel : Nat → Bool
  saveErr : Nat → Option String
  saveFailLeavesFile : Nat → Bool
  removeOnFailErr : Option String
  convErr : Option String
  convCreatesOutput : Bool
  removeFinallyErr : Option String

/-- State threaded through the staging loop (lines 141-204): filesystem,
event trace, and the `used_layer_names` set (kept as a list; only
membership and insertion of fresh names are used). -/
structure StageState where
  fs : FS
  trace : List Event
  used : List String
deriving Repr, DecidableEq

/-- How the staging loop ended: normally, via `break` on cancellation, or
by raising a `QgsProcessingException` (line 201). -/
inductive StageExit where
  | done
  | canceled
  | failed (e : ExportError)
deriving Repr, DecidableEq

/-- Outcome of the whole `processAlgorithm` call: the returned
`{OUTPUT: output_kml}` value or the raised exception. -/
inductive RunOutcome where
  | ok (output_kml : String)
  | error (e : ExportError)
deriving Repr, DecidableEq

/-- Final state and outcome of one `processAlgorithm` call. -/
structure RunResult where
  fs : FS
  trace : List Event
  result : RunOutcome
deriving Repr, DecidableEq

/-! ## IEEE binary64 arithmetic for the progress value (line 204)

Line 204 computes `int((current + 1) / total_steps * 100)` in Python
floats: the true division of the two ints is correctly rounded to the
nearest binary64 (ties to even), the product with the exact constant
`100.0` is correctly rounded again, and `int` truncates toward zero.
This differs from exact integer arithmetic: `int(29 / 100 * 100) = 28`,
not 29.  The model below implements binary64 round-to-nearest-even on
exact rationals.  All quantities reaching it are positive with ratio in
`(0, 1]` and product in `(0, 100]`, squarely inside the normal range
(subnormals would need layer counts beyond `2^1019`, overflow is
impossible), so exponent-range clamping is not modeled. -/

/-- A positive binary64 value `m * 2^e` with normalized mantissa
`2^52 ≤ m < 2^53`. -/
structure B64 where
  m : Nat
  e : Int
deriving Repr, DecidableEq

/-- Scale `num / den` by powers of two (tracking the exponent) until
`num / den ∈ [2^52, 2^53)`.  The fuel bounds the number of shifts; since
each shift moves the ratio by one binade, `num + den + 200` always
suffices for positive inputs. -/
def normalizeLoop : Nat → Nat → Nat → Int → Nat × Nat × Int
  | 0, num, den, e => (num, den, e)
  | fuel + 1, num, den, e =>
    if num < 2 ^ 52 * den then normalizeLoop fuel (num * 2) den (e - 1)
    else if 2 ^ 53 * den ≤ num then normalizeLoop fuel num (den * 2) (e + 1)
    else (num, den, e)

/-- Round the positive rational `num / den` to the nearest binary64,
ties to even. -/
def roundRat (num den : Nat) : B64 :=
  let n := normalizeLoop (num + den + 200) num den 0
  let m0 := n.1 / n.2.1
  let r := n.1 % n.2.1
  let m :=
    if 2 * r < n.2.1 then m0
    else if n.2.1 < 2 * r then m0 + 1
    else if m0 % 2 = 0 then m0 else m0 + 1
  if m = 2 ^ 53 then ⟨2 ^ 52, n.2.2 + 1⟩ else ⟨m, n.2.2⟩

/-- Correctly rounded product `x * 100.0` (the binary exponent commutes
with rounding, so only the mantissa times 100 is re-rounded). -/
def floatMul100 (x : B64) : B64 :=
  let r := roundRat (x.m * 100) 1
  ⟨r.m, r.e + x.e⟩

/-- Python `int()` of a positive binary64 value: truncation toward zero. -/
def floatTruncToNat (x : B64) : Nat :=
  if 0 ≤ x.e then x.m * 2 ^ x.e.toNat else x.m / 2 ^ (-x.e).toNat

/-- `int(k / total * 100)` exactly as Python evaluates it: correctly
rounded int true-division, correctly rounded product with `100.0`,
truncation.  E.g. `progressValue 29 100 = 28` while exact arithmetic
gives 29. -/
def progressValue (k total : Nat) : Nat :=
  floatTruncToNat (floatMul100 (roundRat k total))

/-! ## The staging loop (lines 140-204)

One iteration of the `for` body is split into the successful-save state
update (`stageStepOk`: lines 145-192 and the progress report of line 204)
and the failing-save state update (`stageStepFail`: lines 145-191 followed
by the `except` block of lines 193-201); the loop itself handles the
cancellation check (lines 142-143) and the control flow.

`stageStepFail` also returns the exception that line 201 raises.  The
inner `except Exception as e` at line 199 rebinds the outer exception
variable `e`, and Python 3 deletes an `except ... as` target when its
clause exits; so on the path where the cleanup `os.remove` raised, the
f-string of line 201 evaluates `str(e)` with `e` unbound and raises
`UnboundLocalError` instead of the staging `QgsProcessingException`. -/

def stageStepOk (total_steps : Nat) (layer : String) (current : Nat)
    (st : StageState) : StageState :=
  let layer_name := resolveLayerName layer st.used
  let action : Nat := if current = 0 then 0 else 1
  { fs := { st.fs with tempExists := true }
    used := st.used ++ [layer_name]
    trace := st.trace ++ [Event.poll false]
      ++ (if layer_name ≠ layer then
            [Event.info (msgRenamed layer_name)] else [])
      ++ [Event.info (msgProcessing layer_name),
          Event.info (if current = 0 then msgCreateFirst layer_name
                      else msgAppend layer_name),
          Event.saveCall layer_name action,
          Event.info (msgSaveOk layer_name),
          Event.progress (progressValue (current + 1) total_steps)] }

def stageStepFail (env : Env) (layer : String) (current : Nat)
    (cause : String) (st : StageState) : StageState × ExportError :=
  let layer_name := resolveLayerName layer st.used
  let action : Nat := if current = 0 then 0 else 1
  let tempAfter := st.fs.tempExists || env.saveFailLeavesFile current
  let st2 : StageState :=
    { fs := { st.fs with tempExists := tempAfter }
      used := st.used ++ [layer_name]
      trace := st.trace ++ [Event.poll false]
        ++ (if layer_name ≠ layer then
              [Event.info (msgRenamed layer_name)] else [])
        ++ [Event.info (msgProcessing layer_name),
            Event.info (if current = 0 then msgCreateFirst layer_name
                        else msgAppend layer_name),
            Event.saveCall layer_name action,
            Event.info (msgSaveErr layer_name cause)] }
  if tempAfter then
    match env.removeOnFailErr with
    | none =>
      ({ st2 with
         fs := { st2.fs with tempExists := false }
         trace := st2.trace ++ [Event.removeTemp true] },
       .stagingError layer_name cause)
    | some cause2 =>
      ({ st2 with
         trace := st2.trace
           ++ [Event.removeTemp false,
               Event.info (msgRemoveFailErr cause2)] },
       .unboundLocal)
  else (st2, .stagingError layer_name cause)

def stageLoop (env : Env) (total_steps : Nat) :
    List String → Nat → StageState → StageState × StageExit
  | [], _, st => (st, .done)
  | layer :: rest, current, st =>
    if env.cancel current then
      ({ st with trace := st.trace ++ [Event.poll true] }, .canceled)
    else
      match env.saveErr current with
      | none =>
        stageLoop env total_steps rest (current + 1)
          (stageStepOk total_steps layer current st)
      | some cause =>
        ((stageStepFail env layer current cause st).1,
         .failed (stageStepFail env layer current cause st).2)

/-! ## Conversion phase (lines 206-254) -/

def conversionPhase (env : Env) (output_kml temp_gpkg : String) (n : Nat)
    (st : StageState) : RunResult :=
  if ¬ st.fs.tempExists then
    ⟨st.fs, st.trace, .error (.gpkgNotCreated temp_gpkg)⟩
  else
    let trace4 := st.trace ++ [Event.info (msgAllWritten temp_gpkg),
      Event.info msgConverting, Event.convertCall]
    let step5 : FS × Option String :=
      match env.convErr with
      | some cause => (st.fs, some cause)
      | none =>
        let fs5 : FS := { st.fs with outputExists := env.convCreatesOutput }
        if ¬ fs5.outputExists then (fs5, some (msgKmlMissing output_kml))
        else (fs5, none)
    let fs5 := step5.1
    let innerErr := step5.2
    let trace5 := trace4 ++
      (match innerErr with
       | some cause => [Event.info (msgConvErr cause)]
       | none => [Event.info (msgConvOk output_kml)])
    let step6 : FS × List Event :=
      if fs5.tempExists then
        match env.removeFinallyErr with
        | none =>
          ({ fs5 with tempExists := false },
           trace5 ++ [Event.removeTemp true,
             Event.info (msgTempDeleted temp_gpkg)])
        | some cause2 =>
          (fs5, trace5 ++ [Event.removeTemp false,
             Event.info (msgCannotDeleteTemp cause2)])
      else (fs5, trace5 ++ [Event.info msgTempGone])
    match innerErr with
    | some cause => ⟨step6.1, step6.2, .error (.conversionError cause)⟩
    | none =>
      ⟨step6.1, step6.2 ++ [Event.info (msgDone n output_kml)], .ok output_kml⟩

/-! ## Preparation phase (lines 117-135): intro message, pre-clean of a
stale destination file and of a stale temporary GeoPackage. -/

def prepare (output_kml temp_gpkg : String) (n : Nat) (fs0 : FS) :
    FS × List Event :=
  let trace0 : List Event := [Event.info (msgIntro n output_kml)]
  let step1 : FS × List Event :=
    if fs0.outputExists then
      ({ fs0 with outputExists := false },
       trace0 ++ [Event.info (msgOutputExisted output_kml),
         Event.removeOutput])
    else (fs0, trace0)
  let trace2 := step1.2 ++ [Event.info (msgCreateTemp temp_gpkg)]
  if step1.1.tempExists then
    ({ step1.1 with tempExists := false },
     trace2 ++ [Event.removeTemp true,
       Event.info (msgStaleRemoved temp_gpkg)])
  else (step1.1, trace2)

/-! ## The whole `processAlgorithm` (lines 95-254) -/

def processAlgorithm (env : Env) (input_layers : List String)
    (output_kml : String) (temp_folder : String) (fs0 : FS) : RunResult :=
  if input_layers = [] then ⟨fs0, [], .error .noInputLayers⟩
  else if output_kml = "" then ⟨fs0, [], .error .noOutputPath⟩
  else
    let total_steps := input_layers.length + 1
    let temp_gpkg := temp_folder ++ "/temp_layers.gpkg"
    let prep := prepare output_kml temp_gpkg input_layers.length fs0
    let loopOut :=
      stageLoop env total_steps input_layers 0 ⟨prep.1, prep.2, []⟩
    match loopOut.2 with
    | .failed e => ⟨loopOut.1.fs, loopOut.1.trace, .error e⟩
    | _ =>
      conversionPhase env output_kml temp_gpkg input_layers.length loopOut.1

/-! ## Derived pure descriptions of the staging loop -/

/-- The container-internal names assigned to the layers, in input order,
starting from an already-used set `used`. -/
def stagedNames (used : List String) : List String → List String
  | [] => []
  | layer :: rest =>
    let nm := resolveLayerName layer used
    nm :: stagedNames (used ++ [nm]) rest

/-- The save-service calls (resolved name, `ACTION_ON_EXISTING_FILE` flag)
a failure-free, cancel-free staging loop performs, starting at loop index
`current` with already-used set `used`. -/
def expectedSaves (used : List String) (current : Nat) :
    List String → List (String × Nat)
  | [] => []
  | layer :: rest =>
    let nm := resolveLayerName layer used
    (nm, if current = 0 then 0 else 1) ::
      expectedSaves (used ++ [nm]) (current + 1) rest

/-- The cancellation-poll / save-call subtrace of a failure-free,
cancel-free staging loop. -/
def expectedPollSave (used : List String) (current : Nat) :
    List String → List Event
  | [] => []
  | layer :: rest =>
    let nm := resolveLayerName layer used
    Event.poll false :: Event.saveCall nm (if current = 0 then 0 else 1) ::
      expectedPollSave (used ++ [nm]) (current + 1) rest

/-! ## Trace projections -/

def progressOf (t : List Event) : List Nat :=
  t.filterMap fun e => match e with | .progress v => some v | _ => none

def savesOf (t : List Event) : List (String × Nat) :=
  t.filterMap fun e =>
    match e with | .saveCall nm a => some (nm, a) | _ => none

def pollSaveOf (t : List Event) : List Event :=
  t.filter fun e =>
    match e with | .poll _ => true | .saveCall _ _ => true | _ => false

def infosOf (t : List Event) : List String :=
  t.filterMap fun e => match e with | .info m => some m | _ => none

/-! ## Projection lemmas -/

theorem progressOf_append (s t : List Event) :
    progressOf (s ++ t) = progressOf s ++ progressOf t := by
  simp [progressOf]

theorem savesOf_append (s t : List Event) :
    savesOf (s ++ t) = savesOf s ++ savesOf t := by
  simp [savesOf]

theorem pollSaveOf_append (s t : List Event) :
    pollSaveOf (s ++ t) = pollSaveOf s ++ pollSaveOf t := by
  simp [pollSaveOf]

theorem infosOf_append (s t : List Event) :
    infosOf (s ++ t) = infosOf s ++ infosOf t := by
  simp [infosOf]

theorem prepare_fs (output_kml temp_gpkg : String) (n : Nat) (fs0 : FS) :
    (prepare output_kml temp_gpkg n fs0).1.outputExists = false ∧
    (prepare output_kml temp_gpkg n fs0).1.tempExists = false := by
  unfold prepare
  rcases fs0 with ⟨o, t⟩
  cases o <;> cases t <;> simp

theorem prepare_removeOutput (output_kml temp_gpkg : String) (n : Nat)
    (fs0 : FS) (h : fs0.outputExists = true) :
    Event.removeOutput ∈ (prepare output_kml temp_gpkg n fs0).2 := by
  unfold prepare
  rcases fs0 with ⟨o, t⟩
  cases o <;> cases t <;> simp_all

theorem prepare_projections (output_kml temp_gpkg : String) (n : Nat)
    (fs0 : FS) :
    progressOf (prepare output_kml temp_gpkg n fs0).2 = [] ∧
    pollSaveOf (prepare output_kml temp_gpkg n fs0).2 = [] ∧
    savesOf (prepare output_kml temp_gpkg n fs0).2 = [] := by
  unfold prepare
  rcases fs0 with ⟨o, t⟩
  cases o <;> cases t <;> simp [progressOf, pollSaveOf, savesOf]

/-! ## Staging-step lemmas -/

theorem stageStepOk_proj (total : Nat) (layer : String) (current : Nat)
    (st : StageState) :
    (stageStepOk total layer current st).used
      = st.used ++ [resolveLayerName layer st.used] ∧
    (stageStepOk total layer current st).fs.tempExists = true ∧
    (stageStepOk total layer current st).fs.outputExists
      = st.fs.outputExists ∧
    progressOf (stageStepOk total layer current st).trace
      = progressOf st.trace ++ [progressValue (current + 1) total] ∧
    pollSaveOf (stageStepOk total layer current st).trace
      = pollSaveOf st.trace
        ++ [Event.poll false,
            Event.saveCall (resolveLayerName layer st.used)
              (if current = 0 then 0 else 1)] ∧
    savesOf (stageStepOk total layer current st).trace
      = savesOf st.trace
        ++ [(resolveLayerName layer st.used, if current = 0 then 0 else 1)] := by
  by_cases h : resolveLayerName layer st.used ≠ layer <;>
    simp [stageStepOk, h, progressOf_append, pollSaveOf_append,
      savesOf_append, progressOf, pollSaveOf, savesOf]

theorem stageStepFail_proj (env : Env) (layer : String) (current : Nat)
    (cause : String) (st : StageState) :
    (env.removeOnFailErr = none →
      (stageStepFail env layer current cause st).1.fs.tempExists = false) ∧
    (stageStepFail env layer current cause st).1.fs.outputExists
      = st.fs.outputExists ∧
    Event.info (msgSaveErr (resolveLayerName layer st.used) cause)
      ∈ (stageStepFail env layer current cause st).1.trace ∧
    ((env.removeOnFailErr = none ∨
        (st.fs.tempExists || env.saveFailLeavesFile current) = false) →
      (stageStepFail env layer current cause st).2
        = .stagingError (resolveLayerName layer st.used) cause) ∧
    (∀ cause2, env.removeOnFailErr = some cause2 →
      (st.fs.tempExists || env.saveFailLeavesFile current) = true →
      Event.info (msgRemoveFailErr cause2)
          ∈ (stageStepFail env layer current cause st).1.trace ∧
        (stageStepFail env layer current cause st).1.fs.tempExists = true ∧
        (stageStepFail env layer current cause st).2
          = ExportError.unboundLocal) := by
  refine ⟨?_, ?_, ?_, ?_, ?_⟩
  · intro hrem
    by_cases ht : (st.fs.tempExists || env.saveFailLeavesFile current) = true <;>
      by_cases h : resolveLayerName layer st.used ≠ layer <;>
        simp_all [stageStepFail]
  · by_cases ht : (st.fs.tempExists || env.saveFailLeavesFile current) = true <;>
      rcases hrem : env.removeOnFailErr with _ | c2 <;>
        by_cases h : resolveLayerName layer st.used ≠ layer <;>
          simp_all [stageStepFail]
  · by_cases ht : (st.fs.tempExists || env.saveFailLeavesFile current) = true <;>
      rcases hrem : env.removeOnFailErr with _ | c2 <;>
        by_cases h : resolveLayerName layer st.used ≠ layer <;>
          simp_all [stageStepFail]
  · intro hdisj
    rcases hdisj with hrem | ht
    · by_cases ht : (st.fs.tempExists || env.saveFailLeavesFile current) = true <;>
        by_cases h : resolveLayerName layer st.used ≠ layer <;>
          simp_all [stageStepFail]
    · by_cases h : resolveLayerName layer st.used ≠ layer <;>
        simp_all [stageStepFail]
  · intro cause2 hrem ht
    by_cases h : resolveLayerName layer st.used ≠ layer <;>
      simp_all [stageStepFail]

/-! ## Staging-loop characterization: failure-free, cancel-free runs -/

theorem range_map_shift (c total : Nat) :
    ∀ n, (List.range (n + 1)).map (fun i => progressValue (c + i + 1) total)
      = progressValue (c + 1) total
        :: (List.range n).map
            (fun i => progressValue (c + 1 + i + 1) total) := by
  intro n
  induction n with
  | zero =>
    rw [show List.range 1 = [0] from rfl]
    simp
  | succ n ihn =>
    rw [List.range_succ, List.map_append, ihn, List.range_succ,
      List.map_append]
    simp only [List.map_cons, List.map_nil, List.cons_append]
    rw [show c + (n + 1) + 1 = c + 1 + n + 1 by omega]

theorem stageLoop_ok (env : Env) (total : Nat) :
    ∀ (layers : List String) (current : Nat) (st : StageState),
      (∀ i, i < layers.length → env.cancel (current + i) = false) →
      (∀ i, i < layers.length → env.saveErr (current + i) = none) →
      (stageLoop env total layers current st).2 = StageExit.done ∧
      (stageLoop env total layers current st).1.used
        = st.used ++ stagedNames st.used layers ∧
      (stageLoop env total layers current st).1.fs.outputExists
        = st.fs.outputExists ∧
      (stageLoop env total layers current st).1.fs.tempExists
        = (st.fs.tempExists || !layers.isEmpty) ∧
      progressOf (stageLoop env total layers current st).1.trace
        = progressOf st.trace
          ++ (List.range layers.length).map
              (fun i => progressValue (current + i + 1) total) ∧
      pollSaveOf (stageLoop env total layers current st).1.trace
        = pollSaveOf st.trace ++ expectedPollSave st.used current layers ∧
      savesOf (stageLoop env total layers current st).1.trace
        = savesOf st.trace ++ expectedSaves st.used current layers := by
  intro layers
  induction layers with
  | nil =>
    intro current st _ _
    simp [stageLoop, stagedNames, expectedPollSave, expectedSaves]
  | cons layer rest ih =>
    intro current st hc hs
    have hc0 : env.cancel current = false := by simpa using hc 0 (by simp)
    have hs0 : env.saveErr current = none := by simpa using hs 0 (by simp)
    have hcS : ∀ i, i < rest.length → env.cancel (current + 1 + i) = false := by
      intro i hi
      have := hc (i + 1) (by simp; omega)
      rwa [show current + (i + 1) = current + 1 + i by omega] at this
    have hsS : ∀ i, i < rest.length → env.saveErr (current + 1 + i) = none := by
      intro i hi
      have := hs (i + 1) (by simp; omega)
      rwa [show current + (i + 1) = current + 1 + i by omega] at this
    obtain ⟨ih1, ih2, ih3, ih4, ih5, ih6, ih7⟩ :=
      ih (current + 1) (stageStepOk total layer current st) hcS hsS
    obtain ⟨p1, p2, p3, p4, p5, p6⟩ := stageStepOk_proj total layer current st
    have hstep :
        stageLoop env total (layer :: rest) current st
          = stageLoop env total rest (current + 1)
              (stageStepOk total layer current st) := by
      simp [stageLoop, hc0, hs0]
    rw [hstep]
    refine ⟨ih1, ?_, ?_, ?_, ?_, ?_, ?_⟩
    · rw [ih2, p1]
      rw [show stagedNames st.used (layer :: rest)
            = resolveLayerName layer st.used
              :: stagedNames (st.used ++ [resolveLayerName layer st.used])
                  rest from rfl]
      rw [List.append_assoc, List.singleton_append]
    · rw [ih3, p3]
    · rw [ih4, p2]
      simp
    · rw [ih5, p4, List.append_assoc]
      rw [show (layer :: rest).length = rest.length + 1 from rfl,
        range_map_shift current total rest.length]
      rw [List.singleton_append]
    · rw [ih6, p5, p1]
      rw [show expectedPollSave st.used current (layer :: rest)
            = Event.poll false
              :: Event.saveCall (resolveLayerName layer st.used)
                  (if current = 0 then 0 else 1)
              :: expectedPollSave (st.used ++ [resolveLayerName layer st.used])
                  (current + 1) rest from rfl]
      rw [List.append_assoc]
      simp only [List.cons_append, List.nil_append]
    · rw [ih7, p6, p1]
      rw [show expectedSaves st.used current (layer :: rest)
            = (resolveLayerName layer st.used, if current = 0 then 0 else 1)
              :: expectedSaves (st.used ++ [resolveLayerName layer st.used])
                  (current + 1) rest from rfl]
      rw [List.append_assoc]
      simp only [List.cons_append, List.nil_append]

/-! ## Staging-loop characterization: cancellation at poll `k` -/

theorem stageLoop_canceled (env : Env) (total : Nat) :
    ∀ (layers : List String) (k current : Nat) (st : StageState),
      k < layers.length →
      (∀ i, i < k → env.cancel (current + i) = false) →
      (∀ i, i < k → env.saveErr (current + i) = none) →
      env.cancel (current + k) = true →
      (stageLoop env total layers current st).2 = StageExit.canceled ∧
      (stageLoop env total layers current st).1.used
        = st.used ++ stagedNames st.used (layers.take k) ∧
      (stageLoop env total layers current st).1.fs.outputExists
        = st.fs.outputExists ∧
      (stageLoop env total layers current st).1.fs.tempExists
        = (st.fs.tempExists || decide (0 < k)) ∧
      pollSaveOf (stageLoop env total layers current st).1.trace
        = pollSaveOf st.trace ++ expectedPollSave st.used current (layers.take k)
          ++ [Event.poll true] ∧
      savesOf (stageLoop env total layers current st).1.trace
        = savesOf st.trace ++ expectedSaves st.used current (layers.take k) := by
  intro layers
  induction layers with
  | nil => intro k current st hk; simp at hk
  | cons layer rest ih =>
    intro k current st hk hc hs hck
    match k with
    | 0 =>
      have hc0 : env.cancel current = true := by simpa using hck
      simp [stageLoop, hc0, stagedNames, expectedPollSave, expectedSaves,
        pollSaveOf_append, savesOf_append, pollSaveOf, savesOf]
    | k + 1 =>
      have hc0 : env.cancel current = false := by simpa using hc 0 (by omega)
      have hs0 : env.saveErr current = none := by simpa using hs 0 (by omega)
      have hcS : ∀ i, i < k → env.cancel (current + 1 + i) = false := by
        intro i hi
        have := hc (i + 1) (by omega)
        rwa [show current + (i + 1) = current + 1 + i by omega] at this
      have hsS : ∀ i, i < k → env.saveErr (current + 1 + i) = none := by
        intro i hi
        have := hs (i + 1) (by omega)
        rwa [show current + (i + 1) = current + 1 + i by omega] at this
      have hckS : env.cancel (current + 1 + k) = true := by
        rwa [show current + 1 + k = current + (k + 1) by omega]
      obtain ⟨ih1, ih2, ih3, ih4, ih5, ih6⟩ :=
        ih k (current + 1) (stageStepOk total layer current st)
          (by simpa using Nat.lt_of_succ_lt_succ hk) hcS hsS hckS
      obtain ⟨p1, p2, p3, p4, p5, p6⟩ := stageStepOk_proj total layer current st
      have hstep :
          stageLoop env total (layer :: rest) current st
            = stageLoop env total rest (current + 1)
                (stageStepOk total layer current st) := by
        simp [stageLoop, hc0, hs0]
      rw [hstep]
      refine ⟨ih1, ?_, ?_, ?_, ?_, ?_⟩
      · rw [ih2, p1]
        simp [stagedNames]
      · rw [ih3, p3]
      · rw [ih4, p2]
        simp
      · rw [ih5, p5, p1]
        simp [expectedPollSave]
      · rw [ih6, p6, p1]
        simp [expectedSaves]

/-! ## Staging-loop characterization: save failure at layer `j` -/

theorem stageLoop_failed (env : Env) (total : Nat) :
    ∀ (layers : List String) (j current : Nat) (st : StageState)
      (cause : String),
      j < layers.length →
      (∀ i, i ≤ j → env.cancel (current + i) = false) →
      (∀ i, i < j → env.saveErr (current + i) = none) →
      env.saveErr (current + j) = some cause →
      ((env.removeOnFailErr = none ∨
          (st.fs.tempExists || decide (0 < j)
            || env.saveFailLeavesFile (current + j)) = false) →
        (stageLoop env total layers current st).2
          = StageExit.failed
              (.stagingError ((stagedNames st.used layers).getD j "")
                cause)) ∧
      (env.removeOnFailErr = none →
        (stageLoop env total layers current st).1.fs.tempExists = false) ∧
      (stageLoop env total layers current st).1.fs.outputExists
        = st.fs.outputExists ∧
      Event.info (msgSaveErr ((stagedNames st.used layers).getD j "") cause)
        ∈ (stageLoop env total layers current st).1.trace ∧
      (∀ cause2, env.removeOnFailErr = some cause2 →
        (st.fs.tempExists || decide (0 < j)
            || env.saveFailLeavesFile (current + j)) = true →
        Event.info (msgRemoveFailErr cause2)
            ∈ (stageLoop env total layers current st).1.trace ∧
          (stageLoop env total layers current st).1.fs.tempExists = true ∧
          (stageLoop env total layers current st).2
            = StageExit.failed ExportError.unboundLocal) := by
  intro layers
  induction layers with
  | nil => intro j current st cause hj; simp at hj
  | cons layer rest ih =>
    intro j current st cause hj hc hs hfail
    match j with
    | 0 =>
      have hc0 : env.cancel current = false := by simpa using hc 0 (by omega)
      have hs0 : env.saveErr current = some cause := by simpa using hfail
      have hstep :
          stageLoop env total (layer :: rest) current st
            = ((stageStepFail env layer current cause st).1,
               .failed (stageStepFail env layer current cause st).2) := by
        simp [stageLoop, hc0, hs0]
      obtain ⟨q1, q2, q3, q4, q5⟩ := stageStepFail_proj env layer current cause st
      rw [hstep]
      refine ⟨?_, fun h => q1 h, q2, by simpa [stagedNames] using q3, ?_⟩
      · intro hdisj
        have : (stageStepFail env layer current cause st).2
            = .stagingError (resolveLayerName layer st.used) cause := by
          refine q4 ?_
          rcases hdisj with h | h
          · exact Or.inl h
          · exact Or.inr (by simpa using h)
        rw [this]
        simp [stagedNames]
      · intro cause2 hrem ht
        obtain ⟨hm, htp, herr⟩ := q5 cause2 hrem (by simpa using ht)
        exact ⟨hm, htp, by rw [herr]⟩
    | j + 1 =>
      have hc0 : env.cancel current = false := by simpa using hc 0 (by omega)
      have hs0 : env.saveErr current = none := by simpa using hs 0 (by omega)
      have hcS : ∀ i, i ≤ j → env.cancel (current + 1 + i) = false := by
        intro i hi
        have := hc (i + 1) (by omega)
        rwa [show current + (i + 1) = current + 1 + i by omega] at this
      have hsS : ∀ i, i < j → env.saveErr (current + 1 + i) = none := by
        intro i hi
        have := hs (i + 1) (by omega)
        rwa [show current + (i + 1) = current + 1 + i by omega] at this
      have hfS : env.saveErr (current + 1 + j) = some cause := by
        rwa [show current + 1 + j = current + (j + 1) by omega]
      obtain ⟨ih1, ih2, ih3, ih4, ih5⟩ :=
        ih j (current + 1) (stageStepOk total layer current st) cause
          (by simpa using Nat.lt_of_succ_lt_succ hj) hcS hsS hfS
      obtain ⟨p1, p2, p3, p4, p5, p6⟩ := stageStepOk_proj total layer current st
      have hstep :
          stageLoop env total (layer :: rest) current st
            = stageLoop env total rest (current + 1)
                (stageStepOk total layer current st) := by
        simp [stageLoop, hc0, hs0]
      rw [hstep]
      have hnames :
          (stagedNames (stageStepOk total layer current st).used rest).getD j ""
            = (stagedNames st.used (layer :: rest)).getD (j + 1) "" := by
        rw [p1]
        simp [stagedNames]
      refine ⟨?_, ih2, by rw [ih3, p3], by rw [← hnames]; exact ih4, ?_⟩
      · intro hdisj
        have hrem : env.removeOnFailErr = none := by
          rcases hdisj with h | h
          · exact h
          · exfalso
            simp at h
        rw [← hnames]
        exact ih1 (Or.inl hrem)
      · intro cause2 hrem ht
        refine ih5 cause2 hrem ?_
        rw [p2]
        simp

/-! ## Conversion-phase lemmas -/

/-- The inner error of the conversion `try` block: the service error, or
the missing-output integrity error raised at line 232. -/
def convInnerErr (env : Env) (output_kml : String) : Option String :=
  match env.convErr with
  | some cause => some cause
  | none =>
    if env.convCreatesOutput = false then some (msgKmlMissing output_kml)
    else none

theorem conversionPhase_gpkgMissing (env : Env) (out temp : String) (n : Nat)
    (st : StageState) (h : st.fs.tempExists = false) :
    conversionPhase env out temp n st
      = ⟨st.fs, st.trace, .error (.gpkgNotCreated temp)⟩ := by
  simp [conversionPhase, h]

theorem conversionPhase_result (env : Env) (out temp : String) (n : Nat)
    (st : StageState) (h : st.fs.tempExists = true) :
    (conversionPhase env out temp n st).result
      = (match convInnerErr env out with
         | some cause => .error (.conversionError cause)
         | none => .ok out) := by
  rcases henv : env.convErr with _ | c <;>
    rcases hco : env.convCreatesOutput <;>
      rcases hrf : env.removeFinallyErr with _ | c2 <;>
        simp [conversionPhase, convInnerErr, h, henv, hco, hrf]

theorem conversionPhase_cleanup (env : Env) (out temp : String) (n : Nat)
    (st : StageState) (h : st.fs.tempExists = true) :
    (env.removeFinallyErr = none →
      (conversionPhase env out temp n st).fs.tempExists = false ∧
      Event.removeTemp true ∈ (conversionPhase env out temp n st).trace) ∧
    (∀ c2, env.removeFinallyErr = some c2 →
      (conversionPhase env out temp n st).fs.tempExists = true ∧
      Event.info (msgCannotDeleteTemp c2)
        ∈ (conversionPhase env out temp n st).trace) := by
  constructor
  · intro hrf
    rcases henv : env.convErr with _ | c <;>
      rcases hco : env.convCreatesOutput <;>
        simp [conversionPhase, h, henv, hco, hrf]
  · intro c2 hrf
    rcases henv : env.convErr with _ | c <;>
      rcases hco : env.convCreatesOutput <;>
        simp [conversionPhase, h, henv, hco, hrf]

theorem conversionPhase_projections (env : Env) (out temp : String) (n : Nat)
    (st : StageState) :
    progressOf (conversionPhase env out temp n st).trace
      = progressOf st.trace ∧
    pollSaveOf (conversionPhase env out temp n st).trace
      = pollSaveOf st.trace ∧
    savesOf (conversionPhase env out temp n st).trace
      = savesOf st.trace := by
  rcases ht : st.fs.tempExists <;>
    rcases henv : env.convErr with _ | c <;>
      rcases hco : env.convCreatesOutput <;>
        rcases hrf : env.removeFinallyErr with _ | c2 <;>
          simp [conversionPhase, ht, henv, hco, hrf, progressOf_append,
            pollSaveOf_append, savesOf_append, progressOf, pollSaveOf, savesOf]

theorem conversionPhase_error_output (env : Env) (out temp : String) (n : Nat)
    (st : StageState) (h : st.fs.outputExists = false) :
    ∀ e, (conversionPhase env out temp n st).result = .error e →
      (conversionPhase env out temp n st).fs.outputExists = false := by
  intro e
  rcases ht : st.fs.tempExists <;>
    rcases henv : env.convErr with _ | c <;>
      rcases hco : env.convCreatesOutput <;>
        rcases hrf : env.removeFinallyErr with _ | c2 <;>
          simp [conversionPhase, ht, henv, hco, hrf, h]

/-! ## Unfolding `processAlgorithm` past validation -/

theorem processAlgorithm_eq (env : Env) (layers : List String)
    (out tmp : String) (fs0 : FS) (h1 : layers ≠ []) (h2 : out ≠ "") :
    processAlgorithm env layers out tmp fs0
      = (match (stageLoop env (layers.length + 1) layers 0
            ⟨(prepare out (tmp ++ "/temp_layers.gpkg") layers.length fs0).1,
             (prepare out (tmp ++ "/temp_layers.gpkg") layers.length fs0).2,
             []⟩).2 with
         | .failed e =>
           ⟨(stageLoop env (layers.length + 1) layers 0
               ⟨(prepare out (tmp ++ "/temp_layers.gpkg") layers.length fs0).1,
                (prepare out (tmp ++ "/temp_layers.gpkg") layers.length fs0).2,
                []⟩).1.fs,
            (stageLoop env (layers.length + 1) layers 0
               ⟨(prepare out (tmp ++ "/temp_layers.gpkg") layers.length fs0).1,
                (prepare out (tmp ++ "/temp_layers.gpkg") layers.length fs0).2,
                []⟩).1.trace,
            .error e⟩
         | _ =>
           conversionPhase env out (tmp ++ "/temp_layers.gpkg") layers.length
             (stageLoop env (layers.length + 1) layers 0
               ⟨(prepare out (tmp ++ "/temp_layers.gpkg") layers.length fs0).1,
                (prepare out (tmp ++ "/temp_layers.gpkg") layers.length fs0).2,
                []⟩).1) := by
  simp [processAlgorithm, h1, h2]

/-! ## Invariance under the `finally`-cleanup oracle (for claim 9) -/

theorem stageStepFail_removeFinallyErr (env : Env) (x : Option String)
    (layer : String) (current : Nat) (cause : String) (st : StageState) :
    stageStepFail { env with removeFinallyErr := x } layer current cause st
      = stageStepFail env layer current cause st := rfl

theorem stageLoop_removeFinallyErr (env : Env) (x : Option String)
    (total : Nat) :
    ∀ (layers : List String) (current : Nat) (st : StageState),
      stageLoop { env with removeFinallyErr := x } total layers current st
        = stageLoop env total layers current st := by
  intro layers
  induction layers with
  | nil => intro current st; rfl
  | cons layer rest ih =>
    intro current st
    show (if env.cancel current then _ else _) = _
    rcases hc : env.cancel current
    · rcases hs : env.saveErr current with _ | cause
      · simpa [stageLoop, hc, hs] using ih (current + 1) _
      · simp [stageLoop, hc, hs, stageStepFail_removeFinallyErr]
    · simp [stageLoop, hc]

theorem conversionPhase_result_removeFinallyErr (env : Env) (x : Option String)
    (out temp : String) (n : Nat) (st : StageState) :
    (conversionPhase { env with removeFinallyErr := x } out temp n st).result
      = (conversionPhase env out temp n st).result := by
  rcases ht : st.fs.tempExists <;>
    rcases henv : env.convErr with _ | c <;>
      rcases hco : env.convCreatesOutput <;>
        rcases hx : x with _ | c2 <;>
          rcases hrf : env.removeFinallyErr with _ | c3 <;>
            simp [conversionPhase, ht, henv, hco, hx, hrf]

/-! ## `stagedNames` properties -/

theorem stagedNames_length : ∀ (layers : List String) (used : List String),
    (stagedNames used layers).length = layers.length := by
  intro layers
  induction layers with
  | nil => intro used; rfl
  | cons layer rest ih => intro used; simp [stagedNames, ih]

theorem stagedNames_nodup_aux : ∀ (layers used : List String),
    used.Nodup → (used ++ stagedNames used layers).Nodup := by
  intro layers
  induction layers with
  | nil => intro used h; simpa [stagedNames] using h
  | cons layer rest ih =>
    intro used h
    rw [show stagedNames used (layer :: rest)
          = resolveLayerName layer used
            :: stagedNames (used ++ [resolveLayerName layer used]) rest
        from rfl]
    rw [List.append_cons]
    refine ih (used ++ [resolveLayerName layer used]) ?_
    have := resolveLayerName_not_mem layer used
    simp [List.nodup_append, h, this]

theorem stagedNames_nodup (layers : List String) :
    (stagedNames [] layers).Nodup := by
  simpa using stagedNames_nodup_aux layers [] (by simp)

theorem stagedNames_nonempty : ∀ (layers used : List String),
    (∀ l ∈ layers, l ≠ "") →
    ∀ nm ∈ stagedNames used layers, nm ≠ "" := by
  intro layers
  induction layers with
  | nil => intro used _ nm h; simp [stagedNames] at h
  | cons layer rest ih =>
    intro used hl nm hnm
    rw [show stagedNames used (layer :: rest)
          = resolveLayerName layer used
            :: stagedNames (used ++ [resolveLayerName layer used]) rest
        from rfl] at hnm
    rcases List.mem_cons.mp hnm with hnm | hnm
    · subst hnm
      have hlen : 0 < layer.length := by
        have := hl layer (by simp)
        rcases hq : layer.length with _ | q
        · exfalso
          apply this
          have : layer.data.length = 0 := hq
          have hd : layer.data = [] := List.length_eq_zero.mp this
          exact String.ext (by simp [hd])
        · omega
      have := resolveLayerName_length_pos layer used hlen
      intro hcon
      rw [hcon] at this
      simp [String.length] at this
    · exact ih _ (fun l hm => hl l (by simp [hm])) nm hnm

/-! ## `expectedSaves` interpretation -/

theorem expectedSaves_fst : ∀ (layers used : List String) (current : Nat),
    (expectedSaves used current layers).map Prod.fst
      = stagedNames used layers := by
  intro layers
  induction layers with
  | nil => intro used current; rfl
  | cons layer rest ih =>
    intro used current
    simp only [expectedSaves, stagedNames, List.map_cons]
    rw [ih]

theorem expectedSaves_length :
    ∀ (layers used : List String) (current : Nat),
      (expectedSaves used current layers).length = layers.length := by
  intro layers
  induction layers with
  | nil => intro used current; rfl
  | cons layer rest ih =>
    intro used current
    simp only [expectedSaves, List.length_cons]
    rw [ih]

theorem expectedSaves_snd_pos :
    ∀ (layers used : List String) (current : Nat), current ≠ 0 →
      (expectedSaves used current layers).map Prod.snd
        = List.replicate layers.length 1 := by
  intro layers
  induction layers with
  | nil => intro used current _; rfl
  | cons layer rest ih =>
    intro used current h
    simp only [expectedSaves, List.map_cons, if_neg h, List.length_cons,
      List.replicate_succ]
    rw [ih _ _ (by omega)]

theorem expectedSaves_snd_zero (layer : String) (rest used : List String) :
    (expectedSaves used 0 (layer :: rest)).map Prod.snd
      = 0 :: List.replicate rest.length 1 := by
  simp only [expectedSaves, List.map_cons]
  rw [expectedSaves_snd_pos rest _ 1 (by omega)]
  simp

/-! ## Concrete environments for witnesses and counterexamples -/

/-- All collaborators succeed, no cancellation. -/
def envAllOk : Env :=
  ⟨fun _ => false, fun _ => none, fun _ => false, none, none, true, none⟩

/-- Conversion reports success but produces no output file. -/
def envNoKml : Env := { envAllOk with convCreatesOutput := false }

/-- The save service fails on the second layer (index 1). -/
def envFailAt1 : Env :=
  { envAllOk with saveErr := fun i => if i = 1 then some "boom" else none }

/-- Save failure at index 1 and a failing cleanup `os.remove` in the
staging `except` block. -/
def envBadFailCleanup : Env := { envFailAt1 with removeOnFailErr := some "locked" }

/-- Cancellation already raised at the first poll. -/
def envCancelAt0 : Env := { envAllOk with cancel := fun _ => true }

/-- Cancellation raised at the third poll (index 2). -/
def envCancelAt2 : Env := { envAllOk with cancel := fun i => decide (2 ≤ i) }

/-- A failing `os.remove` in the conversion `finally` block. -/
def envBadCleanup : Env := { envAllOk with removeFinallyErr := some "locked" }

/-! ## Exit-shape corollaries of `processAlgorithm_eq` -/

theorem processAlgorithm_of_done (env : Env) (layers : List String)
    (out tmp : String) (fs0 : FS) (h1 : layers ≠ []) (h2 : out ≠ "")
    (hdone : (stageLoop env (layers.length + 1) layers 0
        ⟨(prepare out (tmp ++ "/temp_layers.gpkg") layers.length fs0).1,
         (prepare out (tmp ++ "/temp_layers.gpkg") layers.length fs0).2,
         []⟩).2 = StageExit.done) :
    processAlgorithm env layers out tmp fs0
      = conversionPhase env out (tmp ++ "/temp_layers.gpkg") layers.length
          (stageLoop env (layers.length + 1) layers 0
            ⟨(prepare out (tmp ++ "/temp_layers.gpkg") layers.length fs0).1,
             (prepare out (tmp ++ "/temp_layers.gpkg") layers.length fs0).2,
             []⟩).1 := by
  rw [processAlgorithm_eq env layers out tmp fs0 h1 h2, hdone]

theorem processAlgorithm_of_canceled (env : Env) (layers : List String)
    (out tmp : String) (fs0 : FS) (h1 : layers ≠ []) (h2 : out ≠ "")
    (hcan : (stageLoop env (layers.length + 1) layers 0
        ⟨(prepare out (tmp ++ "/temp_layers.gpkg") layers.length fs0).1,
         (prepare out (tmp ++ "/temp_layers.gpkg") layers.length fs0).2,
         []⟩).2 = StageExit.canceled) :
    processAlgorithm env layers out tmp fs0
      = conversionPhase env out (tmp ++ "/temp_layers.gpkg") layers.length
          (stageLoop env (layers.length + 1) layers 0
            ⟨(prepare out (tmp ++ "/temp_layers.gpkg") layers.length fs0).1,
             (prepare out (tmp ++ "/temp_layers.gpkg") layers.length fs0).2,
             []⟩).1 := by
  rw [processAlgorithm_eq env layers out tmp fs0 h1 h2, hcan]

theorem processAlgorithm_of_failed (env : Env) (layers : List String)
    (out tmp : String) (fs0 : FS) (e : ExportError)
    (h1 : layers ≠ []) (h2 : out ≠ "")
    (hf : (stageLoop env (layers.length + 1) layers 0
        ⟨(prepare out (tmp ++ "/temp_layers.gpkg") layers.length fs0).1,
         (prepare out (tmp ++ "/temp_layers.gpkg") layers.length fs0).2,
         []⟩).2 = StageExit.failed e) :
    processAlgorithm env layers out tmp fs0
      = ⟨(stageLoop env (layers.length + 1) layers 0
            ⟨(prepare out (tmp ++ "/temp_layers.gpkg") layers.length fs0).1,
             (prepare out (tmp ++ "/temp_layers.gpkg") layers.length fs0).2,
             []⟩).1.fs,
         (stageLoop env (layers.length + 1) layers 0
            ⟨(prepare out (tmp ++ "/temp_layers.gpkg") layers.length fs0).1,
             (prepare out (tmp ++ "/temp_layers.gpkg") layers.length fs0).2,
             []⟩).1.trace,
         .error e⟩ := by
  rw [processAlgorithm_eq env layers out tmp fs0 h1 h2, hf]

/-! ## Claim theorems -/

/-- **C1.** The staging loop resolves each layer's container name
deterministically: a layer keeps its original name when that name is not
yet in the used-name set, otherwise it gets the smallest positive integer
suffix `_k` whose suffixed name is free; the chosen name is recorded;
inputs named `[roads, roads, roads]` receive `[roads, roads_1, roads_2]`;
and no two layers ever share a container-internal name. -/
theorem claim1_name_resolution (env : Env) (total : Nat)
    (layers : List String) (original : String) (used : List String)
    (hc : ∀ i, i < layers.length → env.cancel i = false)
    (hs : ∀ i, i < layers.length → env.saveErr i = none) :
    (∀ st : StageState, st.used = [] →
      (stageLoop env total layers 0 st).1.used = stagedNames [] layers) ∧
    (original ∉ used → resolveLayerName original used = original) ∧
    (original ∈ used →
      ∃ k, 1 ≤ k ∧
        resolveLayerName original used = suffixedName original k ∧
        suffixedName original k ∉ used ∧
        ∀ j, 1 ≤ j → j < k → suffixedName original j ∈ used) ∧
    resolveLayerName original used ∉ used ∧
    (stagedNames [] layers).Nodup ∧
    stagedNames [] ["roads", "roads", "roads"]
      = ["roads", "roads_1", "roads_2"] := by
  refine ⟨?_, ?_, ?_, resolveLayerName_not_mem original used,
    stagedNames_nodup layers, by decide⟩
  · intro st hst
    obtain ⟨_, h2, _⟩ :=
      stageLoop_ok env total layers 0 st (by simpa using hc)
        (by simpa using hs)
    rw [h2, hst]
    simp
  · intro hmem
    obtain ⟨k, hk1, hk2, hk3⟩ := resolveLayerName_spec original used
    match k, hk1, hk2, hk3 with
    | 0, hk1, _, _ => exact hk1
    | k + 1, _, _, hk3 => exact absurd (hk3 0 (by omega)) hmem
  · intro hmem
    obtain ⟨k, hk1, hk2, hk3⟩ := resolveLayerName_spec original used
    match k, hk1, hk2, hk3 with
    | 0, _, hk2, _ => exact absurd hmem hk2
    | k + 1, hk1, hk2, hk3 =>
      refine ⟨k + 1, by omega, hk1, hk2, ?_⟩
      intro j hj1 hj2
      match j, hj1 with
      | j + 1, _ => exact hk3 (j + 1) hj2

/-- Witness for C1 at concrete inputs. -/
theorem claim1_witness :
    (∀ i, i < (["a", "a"] : List String).length → envAllOk.cancel i = false) ∧
    (∀ i, i < (["a", "a"] : List String).length → envAllOk.saveErr i = none) ∧
    ((∀ st : StageState, st.used = [] →
        (stageLoop envAllOk 3 ["a", "a"] 0 st).1.used
          = stagedNames [] ["a", "a"]) ∧
      ("roads" ∉ (["roads", "roads_1"] : List String) →
        resolveLayerName "roads" ["roads", "roads_1"] = "roads") ∧
      ("roads" ∈ (["roads", "roads_1"] : List String) →
        ∃ k, 1 ≤ k ∧
          resolveLayerName "roads" ["roads", "roads_1"]
            = suffixedName "roads" k ∧
          suffixedName "roads" k ∉ (["roads", "roads_1"] : List String) ∧
          ∀ j, 1 ≤ j → j < k →
            suffixedName "roads" j ∈ (["roads", "roads_1"] : List String)) ∧
      resolveLayerName "roads" ["roads", "roads_1"]
        ∉ (["roads", "roads_1"] : List String) ∧
      (stagedNames [] ["a", "a"]).Nodup ∧
      stagedNames [] ["roads", "roads", "roads"]
        = ["roads", "roads_1", "roads_2"]) :=
  ⟨by decide, by decide,
    claim1_name_resolution envAllOk 3 ["a", "a"] "roads" ["roads", "roads_1"]
      (by decide) (by decide)⟩

/-- **C2.** In a staging run without failure or cancellation the save
service is invoked once per layer in input order, with
`ACTION_ON_EXISTING_FILE = 0` exactly for the first layer and
`ACTION_ON_EXISTING_FILE = 1` for every subsequent layer. -/
theorem claim2_write_modes (env : Env) (layers : List String)
    (out tmp : String) (fs0 : FS)
    (hne : layers ≠ []) (hout : out ≠ "")
    (hc : ∀ i, i < layers.length → env.cancel i = false)
    (hs : ∀ i, i < layers.length → env.saveErr i = none) :
    savesOf (processAlgorithm env layers out tmp fs0).trace
      = expectedSaves [] 0 layers ∧
    (savesOf (processAlgorithm env layers out tmp fs0).trace).length
      = layers.length ∧
    (savesOf (processAlgorithm env layers out tmp fs0).trace).map Prod.fst
      = stagedNames [] layers ∧
    (savesOf (processAlgorithm env layers out tmp fs0).trace).map Prod.snd
      = 0 :: List.replicate (layers.length - 1) 1 := by
  obtain ⟨hdone, hused, hout', htemp, hprog, hps, hsv⟩ :=
    stageLoop_ok env (layers.length + 1) layers 0
      ⟨(prepare out (tmp ++ "/temp_layers.gpkg") layers.length fs0).1,
       (prepare out (tmp ++ "/temp_layers.gpkg") layers.length fs0).2,
       []⟩ (by simpa using hc) (by simpa using hs)
  rw [processAlgorithm_of_done env layers out tmp fs0 hne hout hdone]
  obtain ⟨_, _, hcv⟩ :=
    conversionPhase_projections env out (tmp ++ "/temp_layers.gpkg")
      layers.length _
  rw [hcv, hsv]
  obtain ⟨_, _, hpj⟩ :=
    prepare_projections out (tmp ++ "/temp_layers.gpkg") layers.length fs0
  rw [hpj]
  simp only [List.nil_append]
  refine ⟨trivial, expectedSaves_length layers [] 0,
    expectedSaves_fst layers [] 0, ?_⟩
  match layers, hne with
  | layer :: rest, _ =>
    rw [expectedSaves_snd_zero layer rest []]
    simp

/-- Witness for C2 at concrete inputs. -/
theorem claim2_witness :
    (["a", "a", "b"] : List String) ≠ [] ∧
    ("out.kml" : String) ≠ "" ∧
    (∀ i, i < (["a", "a", "b"] : List String).length →
      envAllOk.cancel i = false) ∧
    (∀ i, i < (["a", "a", "b"] : List String).length →
      envAllOk.saveErr i = none) ∧
    (savesOf (processAlgorithm envAllOk ["a", "a", "b"] "out.kml" "tmp"
        ⟨false, false⟩).trace
      = expectedSaves [] 0 ["a", "a", "b"] ∧
    (savesOf (processAlgorithm envAllOk ["a", "a", "b"] "out.kml" "tmp"
        ⟨false, false⟩).trace).length
      = (["a", "a", "b"] : List String).length ∧
    (savesOf (processAlgorithm envAllOk ["a", "a", "b"] "out.kml" "tmp"
        ⟨false, false⟩).trace).map Prod.fst
      = stagedNames [] ["a", "a", "b"] ∧
    (savesOf (processAlgorithm envAllOk ["a", "a", "b"] "out.kml" "tmp"
        ⟨false, false⟩).trace).map Prod.snd
      = 0 :: List.replicate ((["a", "a", "b"] : List String).length - 1) 1) :=
  ⟨by decide, by decide, by decide, by decide,
    claim2_write_modes envAllOk ["a", "a", "b"] "out.kml" "tmp"
      ⟨false, false⟩ (by decide) (by decide) (by decide) (by decide)⟩

/-- **C6.** An empty layer list, or an unset/empty output path, makes the
pipeline fail immediately (`noInputLayers` / `noOutputPath`) before any
filesystem operation: the filesystem state is returned unchanged and the
event trace is empty. -/
theorem claim6_invalid_input (env : Env) (layers : List String)
    (out tmp : String) (fs0 : FS) (h : layers = [] ∨ out = "") :
    (processAlgorithm env layers out tmp fs0).fs = fs0 ∧
    (processAlgorithm env layers out tmp fs0).trace = [] ∧
    (layers = [] →
      (processAlgorithm env layers out tmp fs0).result
        = .error .noInputLayers) ∧
    (layers ≠ [] →
      (processAlgorithm env layers out tmp fs0).result
        = .error .noOutputPath) := by
  rcases h with h | h
  · subst h
    simp [processAlgorithm]
  · subst h
    by_cases hl : layers = []
    · subst hl
      simp [processAlgorithm]
    · simp [processAlgorithm, hl]

/-- Witness for C6 at concrete inputs. -/
theorem claim6_witness :
    (([] : List String) = [] ∨ ("out.kml" : String) = "") ∧
    ((processAlgorithm envAllOk [] "out.kml" "tmp" ⟨true, true⟩).fs
        = ⟨true, true⟩ ∧
      (processAlgorithm envAllOk [] "out.kml" "tmp" ⟨true, true⟩).trace = [] ∧
      (([] : List String) = [] →
        (processAlgorithm envAllOk [] "out.kml" "tmp" ⟨true, true⟩).result
          = .error .noInputLayers) ∧
      (([] : List String) ≠ [] →
        (processAlgorithm envAllOk [] "out.kml" "tmp" ⟨true, true⟩).result
          = .error .noOutputPath)) :=
  ⟨Or.inl rfl,
    claim6_invalid_input envAllOk [] "out.kml" "tmp" ⟨true, true⟩ (Or.inl rfl)⟩

/-- **C8 (amended).** After the staging loop has processed `N` layers the
used-name set has exactly `N` pairwise-distinct entries; when every input
layer name is non-empty, every entry is non-empty.  (The original claim's
unconditional non-emptiness fails: an input layer named by the empty
string contributes the empty string, see `claim8_counterexample`.) -/
theorem claim8_used_names (env : Env) (total N : Nat)
    (layers : List String) (fs : FS) (tr : List Event)
    (hN : N ≤ layers.length)
    (hc : ∀ i, i < N → env.cancel i = false)
    (hs : ∀ i, i < N → env.saveErr i = none) :
    ((stageLoop env total (layers.take N) 0 ⟨fs, tr, []⟩).1.used).length
      = N ∧
    ((stageLoop env total (layers.take N) 0 ⟨fs, tr, []⟩).1.used).Nodup ∧
    ((∀ l ∈ layers, l ≠ "") →
      ∀ nm ∈ (stageLoop env total (layers.take N) 0 ⟨fs, tr, []⟩).1.used,
        nm ≠ "") := by
  have hlen : (layers.take N).length = N := by
    simp [List.length_take]
    omega
  obtain ⟨_, hused, _⟩ :=
    stageLoop_ok env total (layers.take N) 0 ⟨fs, tr, []⟩
      (by intro i hi; rw [hlen] at hi; simpa using hc i hi)
      (by intro i hi; rw [hlen] at hi; simpa using hs i hi)
  rw [hused]
  simp only [List.nil_append]
  refine ⟨by rw [stagedNames_length, hlen], stagedNames_nodup _, ?_⟩
  intro hall nm hnm
  exact stagedNames_nonempty (layers.take N) []
    (fun l hl => hall l (List.take_subset N layers hl)) nm hnm

/-- Witness for C8 at concrete inputs. -/
theorem claim8_witness :
    (2 : Nat) ≤ (["a", "a", "b"] : List String).length ∧
    (∀ i, i < 2 → envAllOk.cancel i = false) ∧
    (∀ i, i < 2 → envAllOk.saveErr i = none) ∧
    (((stageLoop envAllOk 4 ((["a", "a", "b"] : List String).take 2) 0
        ⟨⟨false, false⟩, [], []⟩).1.used).length = 2 ∧
      ((stageLoop envAllOk 4 ((["a", "a", "b"] : List String).take 2) 0
        ⟨⟨false, false⟩, [], []⟩).1.used).Nodup ∧
      ((∀ l ∈ (["a", "a", "b"] : List String), l ≠ "") →
        ∀ nm ∈ (stageLoop envAllOk 4 ((["a", "a", "b"] : List String).take 2) 0
          ⟨⟨false, false⟩, [], []⟩).1.used, nm ≠ "")) :=
  ⟨by decide, by decide, by decide,
    claim8_used_names envAllOk 4 2 ["a", "a", "b"] ⟨false, false⟩ []
      (by decide) (by decide) (by decide)⟩

/-- **C8, counterexample to the original claim.** A run whose single layer
is named by the empty string puts the empty string into the used-name
set, so not every entry is a non-empty string. -/
theorem claim8_counterexample :
    (stageLoop envAllOk 2 [""] 0 ⟨⟨false, false⟩, [], []⟩).1.used = [""] ∧
    ("" : String) ∈
      (stageLoop envAllOk 2 [""] 0 ⟨⟨false, false⟩, [], []⟩).1.used ∧
    ("" : String).length = 0 := by
  decide

/-- **C5.** If staging succeeds but the conversion service reports success
without producing the destination file, the pipeline fails with the
missing-KML integrity error (raised at line 232 and re-wrapped by the
`except` at line 236 into the conversion-error message, which still
reports the expected destination path), and the temporary container is
still deleted when its `finally`-deletion does not itself fail. -/
theorem claim5_missing_output (env : Env) (layers : List String)
    (out tmp : String) (fs0 : FS)
    (hne : layers ≠ []) (hout : out ≠ "")
    (hc : ∀ i, i < layers.length → env.cancel i = false)
    (hs : ∀ i, i < layers.length → env.saveErr i = none)
    (hconv : env.convErr = none) (hcreate : env.convCreatesOutput = false) :
    (processAlgorithm env layers out tmp fs0).result
      = .error (.conversionError (msgKmlMissing out)) ∧
    msgKmlMissing out = "gdal:convertformat未能生成KML文件: " ++ out ∧
    (ExportError.conversionError (msgKmlMissing out)).message
      = msgConvErr (msgKmlMissing out) ∧
    (env.removeFinallyErr = none →
      (processAlgorithm env layers out tmp fs0).fs.tempExists = false ∧
      Event.removeTemp true
        ∈ (processAlgorithm env layers out tmp fs0).trace) := by
  obtain ⟨hdone, _, _, htemp, _, _, _⟩ :=
    stageLoop_ok env (layers.length + 1) layers 0
      ⟨(prepare out (tmp ++ "/temp_layers.gpkg") layers.length fs0).1,
       (prepare out (tmp ++ "/temp_layers.gpkg") layers.length fs0).2,
       []⟩ (by simpa using hc) (by simpa using hs)
  have hlne : layers.isEmpty = false := by
    rcases layers with _ | ⟨l, r⟩
    · exact absurd rfl hne
    · rfl
  have htempT :
      (stageLoop env (layers.length + 1) layers 0
        ⟨(prepare out (tmp ++ "/temp_layers.gpkg") layers.length fs0).1,
         (prepare out (tmp ++ "/temp_layers.gpkg") layers.length fs0).2,
         []⟩).1.fs.tempExists = true := by
    rw [htemp]
    have hp :=
      (prepare_fs out (tmp ++ "/temp_layers.gpkg") layers.length fs0).2
    rw [show (⟨(prepare out (tmp ++ "/temp_layers.gpkg") layers.length fs0).1,
          (prepare out (tmp ++ "/temp_layers.gpkg") layers.length fs0).2,
          []⟩ : StageState).fs
        = (prepare out (tmp ++ "/temp_layers.gpkg") layers.length fs0).1
      from rfl, hp, hlne]
    rfl
  rw [processAlgorithm_of_done env layers out tmp fs0 hne hout hdone]
  refine ⟨?_, rfl, rfl, ?_⟩
  · rw [conversionPhase_result env out (tmp ++ "/temp_layers.gpkg")
      layers.length _ htempT]
    simp [convInnerErr, hconv, hcreate]
  · intro hrf
    obtain ⟨h1, _⟩ :=
      conversionPhase_cleanup env out (tmp ++ "/temp_layers.gpkg")
        layers.length _ htempT
    exact h1 hrf

/-- Witness for C5 at concrete inputs. -/
theorem claim5_witness :
    (["a"] : List String) ≠ [] ∧
    ("o.kml" : String) ≠ "" ∧
    (∀ i, i < (["a"] : List String).length → envNoKml.cancel i = false) ∧
    (∀ i, i < (["a"] : List String).length → envNoKml.saveErr i = none) ∧
    envNoKml.convErr = none ∧
    envNoKml.convCreatesOutput = false ∧
    ((processAlgorithm envNoKml ["a"] "o.kml" "tmp" ⟨false, false⟩).result
        = .error (.conversionError (msgKmlMissing "o.kml")) ∧
      msgKmlMissing "o.kml"
        = "gdal:convertformat未能生成KML文件: " ++ "o.kml" ∧
      (ExportError.conversionError (msgKmlMissing "o.kml")).message
        = msgConvErr (msgKmlMissing "o.kml") ∧
      (envNoKml.removeFinallyErr = none →
        (processAlgorithm envNoKml ["a"] "o.kml" "tmp"
          ⟨false, false⟩).fs.tempExists = false ∧
        Event.removeTemp true ∈ (processAlgorithm envNoKml ["a"] "o.kml"
          "tmp" ⟨false, false⟩).trace)) :=
  ⟨by decide, by decide, by decide, by decide, rfl, rfl,
    claim5_missing_output envNoKml ["a"] "o.kml" "tmp" ⟨false, false⟩
      (by decide) (by decide) (by decide) (by decide) rfl rfl⟩

/-- **C3 (code-bug exhibit).** The claim describes the intended behavior
(documented by the spec's propagation policy and visible in line 201,
which re-renders line 194's message from `str(e)`): a failing secondary
deletion is logged and does not replace the staging failure.  The code
slips: the nested `except Exception as e` (line 199) unbinds the outer
`e` when its clause exits, so when `os.remove(temp_gpkg)` fails, line
201 raises `UnboundLocalError` and the staging failure — with the
layer's resolved name and cause — is lost.  Concretely: saves fail on
layer index 1 (resolved name `b`, cause `boom`) and the cleanup
`os.remove` fails with `locked`; both are logged, but the surfaced
error is the `UnboundLocalError`, not the staging error.  When the
cleanup `os.remove` succeeds the staging error does surface, as a
second run shows. -/
theorem claim3_bug_exhibit :
    (processAlgorithm envBadFailCleanup ["a", "b", "c"] "o.kml" "tmp"
        ⟨false, false⟩).result = .error .unboundLocal ∧
    Event.info (msgSaveErr "b" "boom")
      ∈ (processAlgorithm envBadFailCleanup ["a", "b", "c"] "o.kml" "tmp"
          ⟨false, false⟩).trace ∧
    Event.info (msgRemoveFailErr "locked")
      ∈ (processAlgorithm envBadFailCleanup ["a", "b", "c"] "o.kml" "tmp"
          ⟨false, false⟩).trace ∧
    RunOutcome.error ExportError.unboundLocal
      ≠ RunOutcome.error (.stagingError "b" "boom") ∧
    (processAlgorithm envFailAt1 ["a", "b", "c"] "o.kml" "tmp"
        ⟨false, false⟩).result = .error (.stagingError "b" "boom") ∧
    (processAlgorithm envFailAt1 ["a", "b", "c"] "o.kml" "tmp"
        ⟨false, false⟩).fs.tempExists = false := by
  decide

/-! ## Further helper lemmas for claims 7, 9 and 10 -/

/-- After a failure-free, cancel-free staging of a non-empty layer list,
the temporary GeoPackage exists. -/
theorem staging_temp_true (env : Env) (layers : List String)
    (out tmp : String) (fs0 : FS) (hne : layers ≠ [])
    (hc : ∀ i, i < layers.length → env.cancel i = false)
    (hs : ∀ i, i < layers.length → env.saveErr i = none) :
    (stageLoop env (layers.length + 1) layers 0
      ⟨(prepare out (tmp ++ "/temp_layers.gpkg") layers.length fs0).1,
       (prepare out (tmp ++ "/temp_layers.gpkg") layers.length fs0).2,
       []⟩).1.fs.tempExists = true := by
  obtain ⟨_, _, _, htemp, _, _, _⟩ :=
    stageLoop_ok env (layers.length + 1) layers 0
      ⟨(prepare out (tmp ++ "/temp_layers.gpkg") layers.length fs0).1,
       (prepare out (tmp ++ "/temp_layers.gpkg") layers.length fs0).2,
       []⟩ (by simpa using hc) (by simpa using hs)
  have hlne : layers.isEmpty = false := by
    rcases layers with _ | ⟨l, r⟩
    · exact absurd rfl hne
    · rfl
  rw [htemp,
    (prepare_fs out (tmp ++ "/temp_layers.gpkg") layers.length fs0).2, hlne]
  rfl

theorem stageLoop_outputExists (env : Env) (total : Nat) :
    ∀ (layers : List String) (current : Nat) (st : StageState),
      (stageLoop env total layers current st).1.fs.outputExists
        = st.fs.outputExists := by
  intro layers
  induction layers with
  | nil => intro current st; rfl
  | cons layer rest ih =>
    intro current st
    rcases hc : env.cancel current
    · rcases hs : env.saveErr current with _ | cause
      · rw [show stageLoop env total (layer :: rest) current st
              = stageLoop env total rest (current + 1)
                  (stageStepOk total layer current st)
            from by simp [stageLoop, hc, hs]]
        rw [ih (current + 1) (stageStepOk total layer current st)]
        exact (stageStepOk_proj total layer current st).2.2.1
      · rw [show stageLoop env total (layer :: rest) current st
              = ((stageStepFail env layer current cause st).1,
                 .failed (stageStepFail env layer current cause st).2)
            from by simp [stageLoop, hc, hs]]
        exact (stageStepFail_proj env layer current cause st).2.1
    · simp [stageLoop, hc]

theorem stageStepOk_trace_mono (total : Nat) (layer : String) (current : Nat)
    (st : StageState) (e : Event) (h : e ∈ st.trace) :
    e ∈ (stageStepOk total layer current st).trace := by
  by_cases hr : resolveLayerName layer st.used ≠ layer <;>
    simp [stageStepOk, hr, h]

theorem stageStepFail_trace_mono (env : Env) (layer : String) (current : Nat)
    (cause : String) (st : StageState) (e : Event) (h : e ∈ st.trace) :
    e ∈ (stageStepFail env layer current cause st).1.trace := by
  by_cases ht : (st.fs.tempExists || env.saveFailLeavesFile current) = true <;>
    rcases hrem : env.removeOnFailErr with _ | c2 <;>
      by_cases hr : resolveLayerName layer st.used ≠ layer <;>
        simp_all [stageStepFail]

theorem stageLoop_trace_mono (env : Env) (total : Nat) :
    ∀ (layers : List String) (current : Nat) (st : StageState) (e : Event),
      e ∈ st.trace → e ∈ (stageLoop env total layers current st).1.trace := by
  intro layers
  induction layers with
  | nil => intro current st e h; exact h
  | cons layer rest ih =>
    intro current st e h
    rcases hc : env.cancel current
    · rcases hs : env.saveErr current with _ | cause
      · rw [show stageLoop env total (layer :: rest) current st
              = stageLoop env total rest (current + 1)
                  (stageStepOk total layer current st)
            from by simp [stageLoop, hc, hs]]
        exact ih (current + 1) _ e (stageStepOk_trace_mono total layer current st e h)
      · rw [show stageLoop env total (layer :: rest) current st
              = ((stageStepFail env layer current cause st).1,
                 .failed (stageStepFail env layer current cause st).2)
            from by simp [stageLoop, hc, hs]]
        exact stageStepFail_trace_mono env layer current cause st e h
    · simp [stageLoop, hc, h]

theorem conversionPhase_trace_mono (env : Env) (out temp : String) (n : Nat)
    (st : StageState) (e : Event) (h : e ∈ st.trace) :
    e ∈ (conversionPhase env out temp n st).trace := by
  rcases ht : st.fs.tempExists <;>
    rcases henv : env.convErr with _ | c <;>
      rcases hco : env.convCreatesOutput <;>
        rcases hrf : env.removeFinallyErr with _ | c2 <;>
          simp [conversionPhase, ht, henv, hco, hrf, h]

/-- The surfaced result never depends on the outcome of the `finally`
cleanup `os.remove`. -/
theorem processAlgorithm_result_rfe (env : Env) (x : Option String)
    (layers : List String) (out tmp : String) (fs0 : FS) :
    (processAlgorithm { env with removeFinallyErr := x }
        layers out tmp fs0).result
      = (processAlgorithm env layers out tmp fs0).result := by
  by_cases h1 : layers = []
  · subst h1
    simp [processAlgorithm]
  by_cases h2 : out = ""
  · subst h2
    simp [processAlgorithm, h1]
  rw [processAlgorithm_eq { env with removeFinallyErr := x }
      layers out tmp fs0 h1 h2,
    processAlgorithm_eq env layers out tmp fs0 h1 h2,
    stageLoop_removeFinallyErr env x (layers.length + 1) layers 0 _]
  rcases hL : (stageLoop env (layers.length + 1) layers 0
      ⟨(prepare out (tmp ++ "/temp_layers.gpkg") layers.length fs0).1,
       (prepare out (tmp ++ "/temp_layers.gpkg") layers.length fs0).2,
       []⟩).2 with _ | _ | e
  · exact conversionPhase_result_removeFinallyErr env x out
      (tmp ++ "/temp_layers.gpkg") layers.length _
  · exact conversionPhase_result_removeFinallyErr env x out
      (tmp ++ "/temp_layers.gpkg") layers.length _
  · rfl

/-! ## Claims 7, 9, 10 -/

/-- **C7.** Cancellation is polled once before each layer's write; when it
is first raised at poll `k` the loop stops (`canceled`, no error) having
written exactly the first `k` layers, the poll/save subtrace being `k`
pairs `poll false, saveCall` followed by `poll true`; and if `k = 0` (no
layer written, container absent) the pipeline fails with the
missing-container error, exactly as when staging produced no container. -/
theorem claim7_cancellation (env : Env) (layers : List String)
    (out tmp : String) (fs0 : FS) (k : Nat)
    (hne : layers ≠ []) (hout : out ≠ "")
    (hk : k < layers.length)
    (hc : ∀ i, i < k → env.cancel i = false)
    (hs : ∀ i, i < k → env.saveErr i = none)
    (hck : env.cancel k = true) :
    (stageLoop env (layers.length + 1) layers 0
      ⟨(prepare out (tmp ++ "/temp_layers.gpkg") layers.length fs0).1,
       (prepare out (tmp ++ "/temp_layers.gpkg") layers.length fs0).2,
       []⟩).2 = StageExit.canceled ∧
    pollSaveOf (processAlgorithm env layers out tmp fs0).trace
      = expectedPollSave [] 0 (layers.take k) ++ [Event.poll true] ∧
    (savesOf (processAlgorithm env layers out tmp fs0).trace).length = k ∧
    (k = 0 →
      (processAlgorithm env layers out tmp fs0).result
        = .error (.gpkgNotCreated (tmp ++ "/temp_layers.gpkg"))) := by
  obtain ⟨hexit, hused, houtE, htempE, hps, hsv⟩ :=
    stageLoop_canceled env (layers.length + 1) layers k 0
      ⟨(prepare out (tmp ++ "/temp_layers.gpkg") layers.length fs0).1,
       (prepare out (tmp ++ "/temp_layers.gpkg") layers.length fs0).2,
       []⟩ hk (by simpa using hc) (by simpa using hs) (by simpa using hck)
  rw [processAlgorithm_of_canceled env layers out tmp fs0 hne hout hexit]
  obtain ⟨_, hcp, hcs⟩ :=
    conversionPhase_projections env out (tmp ++ "/temp_layers.gpkg")
      layers.length _
  obtain ⟨_, hpp, hpsav⟩ :=
    prepare_projections out (tmp ++ "/temp_layers.gpkg") layers.length fs0
  refine ⟨hexit, ?_, ?_, ?_⟩
  · rw [hcp, hps, hpp, List.nil_append]
  · rw [hcs, hsv, hpsav, List.nil_append, expectedSaves_length,
      List.length_take]
    omega
  · intro h0
    subst h0
    have htempF :
        (stageLoop env (layers.length + 1) layers 0
          ⟨(prepare out (tmp ++ "/temp_layers.gpkg") layers.length fs0).1,
           (prepare out (tmp ++ "/temp_layers.gpkg") layers.length fs0).2,
           []⟩).1.fs.tempExists = false := by
      rw [htempE,
        (prepare_fs out (tmp ++ "/temp_layers.gpkg") layers.length fs0).2]
      rfl
    rw [conversionPhase_gpkgMissing env out (tmp ++ "/temp_layers.gpkg")
      layers.length _ htempF]

/-- Witness for C7 at concrete inputs. -/
theorem claim7_witness :
    (["a", "b", "c"] : List String) ≠ [] ∧
    ("o.kml" : String) ≠ "" ∧
    (2 : Nat) < (["a", "b", "c"] : List String).length ∧
    (∀ i, i < 2 → envCancelAt2.cancel i = false) ∧
    (∀ i, i < 2 → envCancelAt2.saveErr i = none) ∧
    envCancelAt2.cancel 2 = true ∧
    ((stageLoop envCancelAt2 ((["a", "b", "c"] : List String).length + 1)
        ["a", "b", "c"] 0
        ⟨(prepare "o.kml" ("tmp" ++ "/temp_layers.gpkg")
            (["a", "b", "c"] : List String).length ⟨false, false⟩).1,
         (prepare "o.kml" ("tmp" ++ "/temp_layers.gpkg")
            (["a", "b", "c"] : List String).length ⟨false, false⟩).2,
         []⟩).2 = StageExit.canceled ∧
      pollSaveOf (processAlgorithm envCancelAt2 ["a", "b", "c"] "o.kml" "tmp"
          ⟨false, false⟩).trace
        = expectedPollSave [] 0 ((["a", "b", "c"] : List String).take 2)
          ++ [Event.poll true] ∧
      (savesOf (processAlgorithm envCancelAt2 ["a", "b", "c"] "o.kml" "tmp"
          ⟨false, false⟩).trace).length = 2 ∧
      ((2 : Nat) = 0 →
        (processAlgorithm envCancelAt2 ["a", "b", "c"] "o.kml" "tmp"
            ⟨false, false⟩).result
          = .error (.gpkgNotCreated ("tmp" ++ "/temp_layers.gpkg")))) :=
  ⟨by decide, by decide, by decide, by decide, by decide, by decide,
    claim7_cancellation envCancelAt2 ["a", "b", "c"] "o.kml" "tmp"
      ⟨false, false⟩ 2 (by decide) (by decide) (by decide) (by decide)
      (by decide) (by decide)⟩

/-- **C9.** The `finally` cleanup of the temporary container is attempted
on every exit of the conversion step; its outcome never changes the
surfaced result (a deletion failure neither overturns a success nor
replaces a pending failure); a deletion failure is logged to the feedback
sink. -/
theorem claim9_cleanup_policy (env : Env) (x : Option String)
    (layers : List String) (out tmp : String) (fs0 : FS) :
    (processAlgorithm { env with removeFinallyErr := x }
        layers out tmp fs0).result
      = (processAlgorithm env layers out tmp fs0).result ∧
    (layers ≠ [] → out ≠ "" →
      (∀ i, i < layers.length → env.cancel i = false) →
      (∀ i, i < layers.length → env.saveErr i = none) →
      (env.removeFinallyErr = none →
        (processAlgorithm env layers out tmp fs0).fs.tempExists = false ∧
        Event.removeTemp true
          ∈ (processAlgorithm env layers out tmp fs0).trace) ∧
      (∀ c2, env.removeFinallyErr = some c2 →
        Event.info (msgCannotDeleteTemp c2)
          ∈ (processAlgorithm env layers out tmp fs0).trace ∧
        (env.convErr = none → env.convCreatesOutput = true →
          (processAlgorithm env layers out tmp fs0).result
            = .ok out))) := by
  refine ⟨processAlgorithm_result_rfe env x layers out tmp fs0, ?_⟩
  intro hne hout hc hs
  obtain ⟨hdone, _, _, _, _, _, _⟩ :=
    stageLoop_ok env (layers.length + 1) layers 0
      ⟨(prepare out (tmp ++ "/temp_layers.gpkg") layers.length fs0).1,
       (prepare out (tmp ++ "/temp_layers.gpkg") layers.length fs0).2,
       []⟩ (by simpa using hc) (by simpa using hs)
  have htempT := staging_temp_true env layers out tmp fs0 hne hc hs
  rw [processAlgorithm_of_done env layers out tmp fs0 hne hout hdone]
  obtain ⟨hcl1, hcl2⟩ :=
    conversionPhase_cleanup env out (tmp ++ "/temp_layers.gpkg")
      layers.length _ htempT
  refine ⟨fun hrf => hcl1 hrf, ?_⟩
  intro c2 hrf
  refine ⟨(hcl2 c2 hrf).2, ?_⟩
  intro hce hco
  rw [conversionPhase_result env out (tmp ++ "/temp_layers.gpkg")
    layers.length _ htempT]
  simp [convInnerErr, hce, hco]

/-- Witness for C9 at concrete inputs: a failing cleanup is logged and the
run still succeeds, with the same result as under a succeeding cleanup. -/
theorem claim9_witness :
    (processAlgorithm { envBadCleanup with removeFinallyErr := none }
        ["a"] "o.kml" "tmp" ⟨false, false⟩).result
      = (processAlgorithm envBadCleanup ["a"] "o.kml" "tmp"
          ⟨false, false⟩).result ∧
    Event.info (msgCannotDeleteTemp "locked")
      ∈ (processAlgorithm envBadCleanup ["a"] "o.kml" "tmp"
          ⟨false, false⟩).trace ∧
    (processAlgorithm envBadCleanup ["a"] "o.kml" "tmp"
        ⟨false, false⟩).result = .ok "o.kml" := by
  obtain ⟨ha, hb⟩ :=
    claim9_cleanup_policy envBadCleanup none ["a"] "o.kml" "tmp"
      ⟨false, false⟩
  obtain ⟨h1, h2⟩ := hb (by decide) (by decide) (by decide) (by decide)
  obtain ⟨h3, h4⟩ := h2 "locked" rfl
  exact ⟨ha, h3, h4 rfl rfl⟩

/-- **C10.** After validation passes, a pre-existing destination file is
deleted before any layer is staged, and no run that fails afterwards
leaves a destination file in place. -/
theorem claim10_preclean_output (env : Env) (layers : List String)
    (out tmp : String) (fs0 : FS)
    (hne : layers ≠ []) (hout : out ≠ "") :
    (fs0.outputExists = true →
      Event.removeOutput ∈ (processAlgorithm env layers out tmp fs0).trace) ∧
    (∀ e, (processAlgorithm env layers out tmp fs0).result
        = RunOutcome.error e →
      (processAlgorithm env layers out tmp fs0).fs.outputExists = false) := by
  have hfs0 :=
    prepare_fs out (tmp ++ "/temp_layers.gpkg") layers.length fs0
  have houtL :
      (stageLoop env (layers.length + 1) layers 0
        ⟨(prepare out (tmp ++ "/temp_layers.gpkg") layers.length fs0).1,
         (prepare out (tmp ++ "/temp_layers.gpkg") layers.length fs0).2,
         []⟩).1.fs.outputExists = false := by
    rw [stageLoop_outputExists]
    exact hfs0.1
  constructor
  · intro hpre
    have hm := prepare_removeOutput out (tmp ++ "/temp_layers.gpkg")
      layers.length fs0 hpre
    have hloop := stageLoop_trace_mono env (layers.length + 1) layers 0
      ⟨(prepare out (tmp ++ "/temp_layers.gpkg") layers.length fs0).1,
       (prepare out (tmp ++ "/temp_layers.gpkg") layers.length fs0).2,
       []⟩ Event.removeOutput hm
    rw [processAlgorithm_eq env layers out tmp fs0 hne hout]
    rcases hL : (stageLoop env (layers.length + 1) layers 0
        ⟨(prepare out (tmp ++ "/temp_layers.gpkg") layers.length fs0).1,
         (prepare out (tmp ++ "/temp_layers.gpkg") layers.length fs0).2,
         []⟩).2 with _ | _ | e2
    · exact conversionPhase_trace_mono env out (tmp ++ "/temp_layers.gpkg")
        layers.length _ Event.removeOutput hloop
    · exact conversionPhase_trace_mono env out (tmp ++ "/temp_layers.gpkg")
        layers.length _ Event.removeOutput hloop
    · exact hloop
  · intro e he
    rw [processAlgorithm_eq env layers out tmp fs0 hne hout] at he ⊢
    rcases hL : (stageLoop env (layers.length + 1) layers 0
        ⟨(prepare out (tmp ++ "/temp_layers.gpkg") layers.length fs0).1,
         (prepare out (tmp ++ "/temp_layers.gpkg") layers.length fs0).2,
         []⟩).2 with _ | _ | e2
    · rw [hL] at he
      exact conversionPhase_error_output env out (tmp ++ "/temp_layers.gpkg")
        layers.length _ houtL e he
    · rw [hL] at he
      exact conversionPhase_error_output env out (tmp ++ "/temp_layers.gpkg")
        layers.length _ houtL e he
    · exact houtL

/-- Witness for C10 at concrete inputs. -/
theorem claim10_witness :
    (["a"] : List String) ≠ [] ∧
    ("o.kml" : String) ≠ "" ∧
    ((⟨true, false⟩ : FS).outputExists = true →
      Event.removeOutput
        ∈ (processAlgorithm envFailAt1 ["a"] "o.kml" "tmp"
            ⟨true, false⟩).trace) ∧
    (∀ e, (processAlgorithm envFailAt1 ["a"] "o.kml" "tmp"
          ⟨true, false⟩).result = RunOutcome.error e →
      (processAlgorithm envFailAt1 ["a"] "o.kml" "tmp"
          ⟨true, false⟩).fs.outputExists = false) :=
  ⟨by decide, by decide,
    (claim10_preclean_output envFailAt1 ["a"] "o.kml" "tmp" ⟨true, false⟩
      (by decide) (by decide)).1,
    (claim10_preclean_output envFailAt1 ["a"] "o.kml" "tmp" ⟨true, false⟩
      (by decide) (by decide)).2⟩

end KmlExport
